import Mathlib

/-!
Shallow embedding of the paged single-table record store implemented in
`src/main.c`, and proofs about its record codec, pager, and table layer.

Modelling conventions:
- machine bytes are `Nat` values; a C byte buffer of statically known extent
  is a function `Nat → Nat` (byte offset → byte), a copied byte block is a
  `List Nat`;
- `uint32_t` arithmetic stays inside `Nat` (all quantities involved are far
  below `2 ^ 32`, and `id` carries an explicit `< 2 ^ 32` bound);
- `malloc` returns an uninitialized buffer: its contents are an arbitrary
  allocator function `g : Nat → Nat → Nat` (page index → byte offset → byte)
  that parametrizes every stateful operation;
- a fatal `exit(EXIT_FAILURE)` path is modelled as `none` in an `Option`
  result; the recoverable result codes are the `EXECUTE_RESULT` values.
-/

set_option maxRecDepth 100000

def COLUMN_USERNAME_SIZE : Nat := 32

def COLUMN_EMAIL_SIZE : Nat := 255

/-- `sizeof(((Row*)0)->id)` for `uint32_t id`. -/
def ID_SIZE : Nat := 4

/-- `sizeof` of the C field `char username[COLUMN_USERNAME_SIZE + 1]`:
the serialized field is 33 bytes, terminator slot included. -/
def USERNAME_SIZE : Nat := COLUMN_USERNAME_SIZE + 1

/-- `sizeof` of the C field `char email[COLUMN_EMAIL_SIZE + 1]`: 256 bytes. -/
def EMAIL_SIZE : Nat := COLUMN_EMAIL_SIZE + 1

def ID_OFFSET : Nat := 0

def USERNAME_OFFSET : Nat := ID_OFFSET + ID_SIZE

def EMAIL_OFFSET : Nat := USERNAME_OFFSET + USERNAME_SIZE

/-- `ROW_SIZE = ID_SIZE + USERNAME_SIZE + EMAIL_SIZE = 293`. -/
def ROW_SIZE : Nat := ID_SIZE + USERNAME_SIZE + EMAIL_SIZE

def PAGE_SIZE : Nat := 4096

def TABLE_MAX_PAGES : Nat := 100

/-- `ROWS_PER_PAGE = PAGE_SIZE / ROW_SIZE = 13` (integer division). -/
def ROWS_PER_PAGE : Nat := PAGE_SIZE / ROW_SIZE

/-- `TABLE_MAX_ROWS = ROWS_PER_PAGE * TABLE_MAX_PAGES = 1300`. -/
def TABLE_MAX_ROWS : Nat := ROWS_PER_PAGE * TABLE_MAX_PAGES

/-- The C struct `Row`: `username` and `email` are the raw fixed-width byte
arrays of the struct (33 and 256 bytes for a well-formed value); a C string
of at most `COLUMN_USERNAME_SIZE` bytes occupies the null-padded array. -/
structure Row where
  id : Nat
  username : List Nat
  email : List Nat
  deriving DecidableEq, Repr

/-- A `Row` value as produced by the C program: field arrays have their
declared widths and `id` fits in `uint32_t`. -/
def validRow (r : Row) : Prop :=
  r.username.length = USERNAME_SIZE ∧ r.email.length = EMAIL_SIZE ∧ r.id < 2 ^ 32

instance validRow.decPred : DecidablePred validRow := fun r => by
  unfold validRow; infer_instance

/-- The four bytes `memcpy` copies out of a `uint32_t` (little-endian,
as on the x86 targets the program is written for). -/
def u32Bytes (n : Nat) : List Nat :=
  [n % 256, n / 256 % 256, n / 65536 % 256, n / 16777216 % 256]

/-- Reassembling a `uint32_t` from its four bytes. -/
def bytesToU32 (bs : List Nat) : Nat :=
  bs.getD 0 0 + bs.getD 1 0 * 256 + bs.getD 2 0 * 65536 + bs.getD 3 0 * 16777216

/-- `serialize_row`: lay out `id`, `username`, `email` contiguously at their
fixed offsets (the three `memcpy` calls in `src/main.c:271-275`). -/
def serialize_row (r : Row) : List Nat :=
  u32Bytes r.id ++ r.username ++ r.email

/-- `deserialize_row`: read the three fields back from their fixed offsets
(the three `memcpy` calls in `src/main.c:277-281`). -/
def deserialize_row (bs : List Nat) : Row :=
  { id := bytesToU32 (List.take ID_SIZE (List.drop ID_OFFSET bs))
  , username := List.take USERNAME_SIZE (List.drop USERNAME_OFFSET bs)
  , email := List.take EMAIL_SIZE (List.drop EMAIL_OFFSET bs) }

lemma u32Bytes_length (n : Nat) : (u32Bytes n).length = ID_SIZE := rfl

lemma bytesToU32_u32Bytes (n : Nat) (h : n < 2 ^ 32) : bytesToU32 (u32Bytes n) = n := by
  show n % 256 + n / 256 % 256 * 256 + n / 65536 % 256 * 65536 +
      n / 16777216 % 256 * 16777216 = n
  omega

lemma serialize_row_length (r : Row) (hu : r.username.length = USERNAME_SIZE)
    (he : r.email.length = EMAIL_SIZE) : (serialize_row r).length = ROW_SIZE := by
  simp [serialize_row, u32Bytes, hu, he, ROW_SIZE, ID_SIZE, USERNAME_SIZE, EMAIL_SIZE,
    COLUMN_USERNAME_SIZE, COLUMN_EMAIL_SIZE]

lemma deserialize_serialize (r : Row) (hu : r.username.length = USERNAME_SIZE)
    (he : r.email.length = EMAIL_SIZE) (hid : r.id < 2 ^ 32) :
    deserialize_row (serialize_row r) = r := by
  obtain ⟨i, u, e⟩ := r
  simp only [validRow] at *
  have h4 : (u32Bytes i).length = ID_OFFSET + ID_SIZE := rfl
  simp only [deserialize_row, serialize_row, Row.mk.injEq]
  refine ⟨?_, ?_, ?_⟩
  · rw [show ID_OFFSET = 0 from rfl, List.drop_zero, List.append_assoc,
      List.take_left' (u32Bytes_length i)]
    exact bytesToU32_u32Bytes i hid
  · rw [List.append_assoc, List.drop_left' (by simpa using h4), List.take_left' hu]
  · have h37 : (u32Bytes i ++ u).length = EMAIL_OFFSET := by
      simp [hu]
      rfl
    rw [List.drop_left' h37, ← he, List.take_length]

/-- C5: for every record whose `username` field holds at most 32 bytes of
text (a 33-byte null-padded array) and whose `email` field holds at most 255
bytes (a 256-byte null-padded array), deserializing the serialization yields
the record back: `decode(encode(r)) = r`. -/
theorem c5_codec_roundtrip (r : Row) (hu : r.username.length = USERNAME_SIZE)
    (he : r.email.length = EMAIL_SIZE) (hid : r.id < 2 ^ 32) :
    deserialize_row (serialize_row r) = r :=
  deserialize_serialize r hu he hid

/-- A concrete well-formed record used to instantiate theorems. -/
def r0 : Row :=
  { id := 1
  , username := List.replicate USERNAME_SIZE 97
  , email := List.replicate EMAIL_SIZE 98 }

theorem c5_codec_roundtrip_witness :
    (r0.username.length = USERNAME_SIZE ∧ r0.email.length = EMAIL_SIZE ∧
      r0.id < 2 ^ 32) ∧ deserialize_row (serialize_row r0) = r0 :=
  ⟨⟨by decide, by decide, by decide⟩,
    c5_codec_roundtrip r0 (by decide) (by decide) (by decide)⟩

/-! ## File, pager and table state -/

/-- The C enum `EXECUTE_RESULT`. -/
inductive EXECUTE_RESULT where
  | EXECUTE_SUCCESS
  | EXECUTE_TABLE_EMPTY
  | EXECUTE_TABLE_FULL
  deriving DecidableEq, Repr

/-- The backing file: a recorded length (what `lseek(fd, 0, SEEK_END)`
reports) and its byte contents (`data j` for `j < len`; bytes past `len`
read as 0, the POSIX hole/short-read behavior). -/
structure DbFile where
  len : Nat
  data : Nat → Nat

/-- A never-written (freshly created, empty) backing file. -/
def emptyFile : DbFile := { len := 0, data := fun _ => 0 }

/-- POSIX `lseek(fd, off, SEEK_SET)` followed by `write(fd, buf, size)`:
the `size` bytes of `buf` replace the file range `[off, off + size)`,
the length grows to cover it, and any hole reads as zero. -/
def fileWrite (f : DbFile) (off : Nat) (buf : Nat → Nat) (size : Nat) : DbFile :=
  { len := max f.len (off + size)
  , data := fun j =>
      if off ≤ j ∧ j < off + size then buf (j - off)
      else if j < f.len then f.data j else 0 }

/-- The C struct `Pager`: the backing file (standing for `fd` plus the
`file_length` snapshot) and the `pages` array of optional resident page
buffers. -/
structure Pager where
  file : DbFile
  pages : Nat → Option (Nat → Nat)

/-- `num_pages` as computed inside `get_page`
(`(file_length + PAGE_SIZE - 1) / PAGE_SIZE`). -/
def num_pages (f : DbFile) : Nat := (f.len + PAGE_SIZE - 1) / PAGE_SIZE

/-- The buffer produced for a page miss in `get_page`, given the allocator
garbage `g`: `malloc(PAGE_SIZE)` yields `g page_num`; if
`page_num <= num_pages` the code `read`s up to `PAGE_SIZE` bytes at the
page's offset over the front of the buffer (a short read leaves the tail of
the malloc garbage in place). -/
def loadPage (g : Nat → Nat → Nat) (f : DbFile) (page_num : Nat) : Nat → Nat :=
  if page_num ≤ num_pages f then
    fun j => if j < min PAGE_SIZE (f.len - page_num * PAGE_SIZE)
      then f.data (page_num * PAGE_SIZE + j) else g page_num j
  else g page_num

/-- The byte contents `get_page` hands out for a page index: the resident
buffer if there is one, otherwise the buffer a miss would build. Residency
changes never alter this observation. -/
def obsPage (g : Nat → Nat → Nat) (p : Pager) (page_num : Nat) : Nat → Nat :=
  match p.pages page_num with
  | some pg => pg
  | none => loadPage g p.file page_num

/-- `get_page` (`src/main.c:115-135`): exits fatally (`none`) only when
`page_num > TABLE_MAX_PAGES` — the source's comparison is `>`, not `>=`;
on a miss it installs the loaded buffer and returns it. -/
def get_page (g : Nat → Nat → Nat) (p : Pager) (page_num : Nat) :
    Option ((Nat → Nat) × Pager) :=
  if TABLE_MAX_PAGES < page_num then none
  else
    match p.pages page_num with
    | some pg => some (pg, p)
    | none =>
      let pg := loadPage g p.file page_num
      some (pg, { p with pages := fun i => if i = page_num then some pg else p.pages i })

/-- The C struct `Table`. -/
structure Table where
  num_rows : Nat
  pager : Pager

/-- `db_open` composed with `pager_open`: record the file length and derive
`num_rows = file_length / ROW_SIZE`; no page is resident. -/
def db_open (f : DbFile) : Table :=
  { num_rows := f.len / ROW_SIZE
  , pager := { file := f, pages := fun _ => none } }

/-- `memcpy(page + off, bs, bs.length)` on a page buffer. -/
def writeSlot (pg : Nat → Nat) (off : Nat) (bs : List Nat) : Nat → Nat :=
  fun j => if off ≤ j ∧ j < off + bs.length then bs.getD (j - off) 0 else pg j

/-- The `ROW_SIZE` bytes of a page buffer starting at `off` (the block a
`memcpy` out of `row_slot` reads). -/
def readSlot (pg : Nat → Nat) (off : Nat) : List Nat :=
  (List.range ROW_SIZE).map fun k => pg (off + k)

/-- The serialized bytes stored for row `i`, read through the pager as
`row_slot` would (`page = i / ROWS_PER_PAGE`,
`offset = (i % ROWS_PER_PAGE) * ROW_SIZE`). -/
def obsRowBytes (g : Nat → Nat → Nat) (t : Table) (i : Nat) : List Nat :=
  readSlot (obsPage g t.pager (i / ROWS_PER_PAGE)) ((i % ROWS_PER_PAGE) * ROW_SIZE)

/-- `execute_insert` (`src/main.c:311-321`): `TableFull` when
`num_rows >= TABLE_MAX_ROWS`, otherwise serialize into
`row_slot(table, num_rows)` and increment `num_rows`. -/
def execute_insert (g : Nat → Nat → Nat) (r : Row) (t : Table) :
    Option (EXECUTE_RESULT × Table) :=
  if TABLE_MAX_ROWS ≤ t.num_rows then some (EXECUTE_RESULT.EXECUTE_TABLE_FULL, t)
  else
    match get_page g t.pager (t.num_rows / ROWS_PER_PAGE) with
    | none => none
    | some (pg, p2) =>
      let off := (t.num_rows % ROWS_PER_PAGE) * ROW_SIZE
      let pg2 := writeSlot pg off (serialize_row r)
      some (EXECUTE_RESULT.EXECUTE_SUCCESS,
        { num_rows := t.num_rows + 1
        , pager :=
          { p2 with pages := fun i =>
              if i = t.num_rows / ROWS_PER_PAGE then some pg2 else p2.pages i } })

/-- The scan loop of `execute_select`: deserialize rows
`start, start+1, ...` (`c` of them) in ascending order, threading the pager
state through `row_slot`/`get_page`. -/
def selectRows (g : Nat → Nat → Nat) : Nat → Nat → Table → Option (List Row × Table)
  | _, 0, t => some ([], t)
  | start, c + 1, t =>
    match get_page g t.pager (start / ROWS_PER_PAGE) with
    | none => none
    | some (pg, p2) =>
      let row := deserialize_row (readSlot pg ((start % ROWS_PER_PAGE) * ROW_SIZE))
      match selectRows g (start + 1) c { t with pager := p2 } with
      | none => none
      | some (rows, t2) => some (row :: rows, t2)

/-- `execute_select` (`src/main.c:323-333`): `TableEmpty` when
`num_rows == 0`, otherwise scan rows `0 .. num_rows - 1` in order; the
returned list is the sequence of records printed. -/
def execute_select (g : Nat → Nat → Nat) (t : Table) :
    Option (EXECUTE_RESULT × List Row × Table) :=
  if t.num_rows = 0 then some (EXECUTE_RESULT.EXECUTE_TABLE_EMPTY, [], t)
  else
    match selectRows g 0 t.num_rows t with
    | none => none
    | some (rows, t2) => some (EXECUTE_RESULT.EXECUTE_SUCCESS, rows, t2)

/-- `pager_flush` (`src/main.c:137-156`): fatal (`none`) on a non-resident
page, otherwise write the first `size` bytes of the buffer at the page's
file offset. -/
def pager_flush (p : Pager) (page_num size : Nat) : Option Pager :=
  match p.pages page_num with
  | none => none
  | some pg => some { p with file := fileWrite p.file (page_num * PAGE_SIZE) pg size }

/-- The first loop of `db_close`: for `i = 0 .. n - 1`, skip a non-resident
page, otherwise flush it with `PAGE_SIZE` bytes and release it. -/
def flushFullPages (p : Pager) : Nat → Option Pager
  | 0 => some p
  | k + 1 =>
    match flushFullPages p k with
    | none => none
    | some p2 =>
      match p2.pages k with
      | none => some p2
      | some _ =>
        match pager_flush p2 k PAGE_SIZE with
        | none => none
        | some p3 => some { p3 with pages := fun i => if i = k then none else p3.pages i }

/-- `db_close` (`src/main.c:158-194`): flush the `num_rows / ROWS_PER_PAGE`
full pages, then — when `num_rows % ROWS_PER_PAGE` is nonzero and the
partial page is resident — flush the partial page, with `PAGE_SIZE` bytes
exactly as the source does (`pager_flush(pager, page_num, PAGE_SIZE)` at
`src/main.c:175`). Returns the final file contents. -/
def db_close (t : Table) : Option DbFile :=
  let num_full_pages := t.num_rows / ROWS_PER_PAGE
  match flushFullPages t.pager num_full_pages with
  | none => none
  | some p2 =>
    let num_additional_rows := t.num_rows % ROWS_PER_PAGE
    if num_additional_rows ≠ 0 then
      match p2.pages num_full_pages with
      | none => some p2.file
      | some _ =>
        match pager_flush p2 num_full_pages PAGE_SIZE with
        | none => none
        | some p3 => some p3.file
    else some p2.file

/-! ## Constant values -/

lemma ROW_SIZE_eq : ROW_SIZE = 293 := rfl

lemma ROWS_PER_PAGE_eq : ROWS_PER_PAGE = 13 := rfl

lemma TABLE_MAX_ROWS_eq : TABLE_MAX_ROWS = 1300 := rfl

lemma PAGE_SIZE_eq : PAGE_SIZE = 4096 := rfl

lemma TABLE_MAX_PAGES_eq : TABLE_MAX_PAGES = 100 := rfl

/-! ## Concrete allocator instances and runs -/

/-- An allocator whose `malloc` garbage is the byte 1 everywhere. -/
def gOnes : Nat → Nat → Nat := fun _ _ => 1

/-- An allocator whose `malloc` garbage happens to be all zeros. -/
def gZero : Nat → Nat → Nat := fun _ _ => 0

/-- C3 evidence: requesting page index `TABLE_MAX_PAGES` (= 100) does NOT
fail: the source compares with `>` instead of `>=`
(`src/main.c:116`), so index 100 slips past the guard, a buffer is
allocated and stored one slot past the end of the 100-entry `pages` array. -/
theorem c3_get_page_at_max_pages_allocates :
    ∃ pg p2, get_page gZero (db_open emptyFile).pager TABLE_MAX_PAGES = some (pg, p2) ∧
      p2.pages TABLE_MAX_PAGES = some pg :=
  ⟨_, _, rfl, rfl⟩

/-- C4 evidence: on a table opened on an empty file (recorded length 0,
so page 0's byte range lies wholly beyond the file), `get_page 0` still
takes the read path (`0 <= num_pages`), the read is short by the full
`PAGE_SIZE`, and the returned buffer is the raw `malloc` garbage — not
zero-initialized: with an allocator producing the byte 1, byte 0 of the
buffer is 1. -/
theorem c4_get_page_buffer_not_zeroed :
    (db_open emptyFile).pager.file.len = 0 ∧
      ∃ pg p2, get_page gOnes (db_open emptyFile).pager 0 = some (pg, p2) ∧
        pg 0 = 1 ∧ ¬ pg 0 = 0 :=
  ⟨rfl, _, _, rfl, rfl, by decide⟩

/-- One successful insert of `r0` into a table opened on an empty file. -/
def insertStep1 : Option (EXECUTE_RESULT × Table) :=
  execute_insert gOnes r0 (db_open emptyFile)

/-- The backing file contents after closing the one-row table. -/
def closedFile1 : Option DbFile :=
  insertStep1.bind fun x => db_close x.2

/-- C2 evidence: after one successful insert (`num_rows = 1`, not a multiple
of `ROWS_PER_PAGE = 13`), `db_close` flushes the partial page with
`PAGE_SIZE` (4096) bytes rather than `1 * ROW_SIZE` (293): the closed file
has length 4096 and byte offset `ROW_SIZE` — the first byte beyond the last
valid row — holds the allocator garbage byte 1, i.e. it WAS written. -/
theorem c2_partial_page_flushed_with_page_size :
    ∃ t1, insertStep1 = some (EXECUTE_RESULT.EXECUTE_SUCCESS, t1) ∧
      ∃ f, db_close t1 = some f ∧ f.len = PAGE_SIZE ∧ ¬ f.len = ROW_SIZE ∧
        f.data ROW_SIZE = 1 :=
  ⟨_, rfl, _, rfl, rfl, by decide, by decide⟩

/-- The table obtained by reopening the closed one-row file. -/
def reopened1 : Table := db_open (closedFile1.getD emptyFile)

/-- C1 evidence: insert one record, close, reopen — the reopened table
reports `num_rows = 4096 / 293 = 13`, not 1, and `select_all` yields a
13-element sequence instead of the single inserted record. -/
theorem c1_reopen_yields_thirteen_rows :
    (∃ f, closedFile1 = some f) ∧ reopened1.num_rows = 13 ∧
      ¬ reopened1.num_rows = 1 ∧
      ∃ rows t2, execute_select gOnes reopened1 =
        some (EXECUTE_RESULT.EXECUTE_SUCCESS, rows, t2) ∧ rows.length = 13 := by
  refine ⟨⟨_, rfl⟩, rfl, by decide, _, _, rfl, by decide⟩

/-! ## General lemmas about the pager -/

lemma obsPage_ext (g : Nat → Nat → Nat) (p p2 : Pager) (q : Nat)
    (h1 : p2.pages q = p.pages q) (h2 : p2.file = p.file) :
    obsPage g p2 q = obsPage g p q := by
  unfold obsPage
  rw [h1, h2]

/-- `get_page` on an in-bounds index succeeds, returns exactly the observable
page contents, leaves the file alone, and changes no page's observable
contents (it can only make a page resident). -/
lemma get_page_spec (g : Nat → Nat → Nat) (p : Pager) (pn : Nat)
    (h : pn ≤ TABLE_MAX_PAGES) :
    ∃ p2, get_page g p pn = some (obsPage g p pn, p2) ∧ p2.file = p.file ∧
      ∀ q, obsPage g p2 q = obsPage g p q := by
  have hg : ¬ TABLE_MAX_PAGES < pn := by omega
  cases hp : p.pages pn with
  | some pg =>
    refine ⟨p, ?_, rfl, fun q => rfl⟩
    simp [get_page, hg, hp, obsPage]
  | none =>
    refine ⟨{ p with pages := fun i =>
        if i = pn then some (loadPage g p.file pn) else p.pages i }, ?_, rfl, ?_⟩
    · simp [get_page, hg, hp, obsPage]
    · intro q
      by_cases hq : q = pn
      · subst hq
        refine obsPage_ext g _ _ q ?_ rfl |>.trans ?_
        · simp
        · simp [obsPage, hp]
      · exact obsPage_ext g p _ q (by simp [hq]) rfl

lemma writeSlot_frame (pg : Nat → Nat) (off : Nat) (bs : List Nat) (j : Nat)
    (h : j < off ∨ off + bs.length ≤ j) : writeSlot pg off bs j = pg j := by
  unfold writeSlot
  rw [if_neg]
  omega

lemma readSlot_length (pg : Nat → Nat) (off : Nat) : (readSlot pg off).length = ROW_SIZE := by
  simp [readSlot]

lemma readSlot_writeSlot (pg : Nat → Nat) (off : Nat) (bs : List Nat)
    (h : bs.length = ROW_SIZE) : readSlot (writeSlot pg off bs) off = bs := by
  refine List.ext_getElem (by simp [readSlot, h]) ?_
  intro n h1 h2
  have hn : n < ROW_SIZE := by simpa [readSlot] using h1
  simp only [readSlot, List.getElem_map, List.getElem_range]
  unfold writeSlot
  rw [if_pos (by omega)]
  have hoff : off + n - off = n := by omega
  rw [hoff, List.getD_eq_getElem bs 0 (by omega)]

lemma readSlot_congr (pg1 pg2 : Nat → Nat) (off : Nat)
    (h : ∀ k, k < ROW_SIZE → pg1 (off + k) = pg2 (off + k)) :
    readSlot pg1 off = readSlot pg2 off := by
  unfold readSlot
  exact List.map_congr_left fun a ha => h a (List.mem_range.mp ha)

/-- Byte ranges of distinct row slots on the same page are disjoint. -/
lemma slot_disjoint (i m k : Nat) (hne : i ≠ m)
    (hpage : i / ROWS_PER_PAGE = m / ROWS_PER_PAGE) (hk : k < ROW_SIZE) :
    i % ROWS_PER_PAGE * ROW_SIZE + k < m % ROWS_PER_PAGE * ROW_SIZE ∨
      m % ROWS_PER_PAGE * ROW_SIZE + ROW_SIZE ≤ i % ROWS_PER_PAGE * ROW_SIZE + k := by
  rw [ROWS_PER_PAGE_eq, ROW_SIZE_eq] at *
  omega

lemma obsRowBytes_pager (g : Nat → Nat → Nat) (t t2 : Table)
    (h : ∀ q, obsPage g t2.pager q = obsPage g t.pager q) (i : Nat) :
    obsRowBytes g t2 i = obsRowBytes g t i := by
  unfold obsRowBytes
  rw [h]

/-! ## The successful-insert frame -/

/-- A successful `execute_insert` (capacity not reached) increments
`num_rows`, leaves the file untouched, replaces the destination page's
observable contents by the page with the record serialized into the slot of
row `num_rows`, and changes no other page. -/
lemma execute_insert_spec (g : Nat → Nat → Nat) (r : Row) (t : Table)
    (hlt : t.num_rows < TABLE_MAX_ROWS) :
    ∃ t2, execute_insert g r t = some (EXECUTE_RESULT.EXECUTE_SUCCESS, t2) ∧
      t2.num_rows = t.num_rows + 1 ∧ t2.pager.file = t.pager.file ∧
      obsPage g t2.pager (t.num_rows / ROWS_PER_PAGE) =
        writeSlot (obsPage g t.pager (t.num_rows / ROWS_PER_PAGE))
          (t.num_rows % ROWS_PER_PAGE * ROW_SIZE) (serialize_row r) ∧
      ∀ q, q ≠ t.num_rows / ROWS_PER_PAGE →
        obsPage g t2.pager q = obsPage g t.pager q := by
  have hpn : t.num_rows / ROWS_PER_PAGE ≤ TABLE_MAX_PAGES := by
    rw [ROWS_PER_PAGE_eq, TABLE_MAX_PAGES_eq]
    rw [TABLE_MAX_ROWS_eq] at hlt
    omega
  obtain ⟨p2, hgp, hfile, hobs⟩ := get_page_spec g t.pager (t.num_rows / ROWS_PER_PAGE) hpn
  refine ⟨{ num_rows := t.num_rows + 1
          , pager := { p2 with pages := (fun i =>
              if i = t.num_rows / ROWS_PER_PAGE then
                some (writeSlot (obsPage g t.pager (t.num_rows / ROWS_PER_PAGE))
                  (t.num_rows % ROWS_PER_PAGE * ROW_SIZE) (serialize_row r))
              else p2.pages i) } }, ?_, rfl, hfile, ?_, ?_⟩
  · unfold execute_insert
    rw [if_neg (by omega), hgp]
  · simp [obsPage]
  · intro q hq
    trans obsPage g p2 q
    · exact obsPage_ext g p2 _ q (if_neg hq) rfl
    · exact hobs q

/-- Row-level reading of `execute_insert_spec`: the new row reads back as the
serialized record and every previously stored row's bytes are unchanged. -/
lemma execute_insert_rows (g : Nat → Nat → Nat) (r : Row) (t : Table)
    (hlt : t.num_rows < TABLE_MAX_ROWS) (hr : (serialize_row r).length = ROW_SIZE) :
    ∃ t2, execute_insert g r t = some (EXECUTE_RESULT.EXECUTE_SUCCESS, t2) ∧
      t2.num_rows = t.num_rows + 1 ∧ t2.pager.file = t.pager.file ∧
      (∀ q j, (q ≠ t.num_rows / ROWS_PER_PAGE ∨
          j < t.num_rows % ROWS_PER_PAGE * ROW_SIZE ∨
          t.num_rows % ROWS_PER_PAGE * ROW_SIZE + ROW_SIZE ≤ j) →
        obsPage g t2.pager q j = obsPage g t.pager q j) ∧
      obsRowBytes g t2 t.num_rows = serialize_row r ∧
      ∀ i, i < t.num_rows → obsRowBytes g t2 i = obsRowBytes g t i := by
  obtain ⟨t2, he, hn, hf, hw, hfr⟩ := execute_insert_spec g r t hlt
  refine ⟨t2, he, hn, hf, ?_, ?_, ?_⟩
  · intro q j hdisj
    by_cases hq : q = t.num_rows / ROWS_PER_PAGE
    · subst hq
      rw [hw]
      refine writeSlot_frame _ _ _ _ ?_
      rw [hr]
      rcases hdisj with hq2 | hj | hj
      · exact absurd rfl hq2
      · exact Or.inl hj
      · exact Or.inr hj
    · rw [hfr q hq]
  · unfold obsRowBytes
    rw [hw]
    exact readSlot_writeSlot _ _ _ hr
  · intro i hi
    unfold obsRowBytes
    by_cases hq : i / ROWS_PER_PAGE = t.num_rows / ROWS_PER_PAGE
    · rw [hq, hw]
      refine readSlot_congr _ _ _ fun k hk => ?_
      refine writeSlot_frame _ _ _ _ ?_
      rw [hr]
      exact slot_disjoint i t.num_rows k (by omega) hq hk
    · rw [hfr _ hq]

lemma execute_insert_num_rows (g : Nat → Nat → Nat) (r : Row) (t : Table)
    (res : EXECUTE_RESULT) (t2 : Table) (h : execute_insert g r t = some (res, t2))
    (hle : t.num_rows ≤ TABLE_MAX_ROWS) : t2.num_rows ≤ TABLE_MAX_ROWS := by
  by_cases hf : TABLE_MAX_ROWS ≤ t.num_rows
  · unfold execute_insert at h
    rw [if_pos hf] at h
    simp only [Option.some.injEq, Prod.mk.injEq] at h
    rw [← h.2]
    exact hle
  · obtain ⟨t3, he, hn, _⟩ := execute_insert_spec g r t (by omega)
    rw [he] at h
    simp only [Option.some.injEq, Prod.mk.injEq] at h
    rw [← h.2]
    omega

/-- C7: `execute_insert` returns `TableFull` exactly when
`num_rows >= TABLE_MAX_ROWS`, and then returns the table state completely
unchanged (it is the very same state `t`); below capacity it succeeds and
increments `num_rows`. -/
theorem c7_insert_full_iff_capacity (g : Nat → Nat → Nat) (r : Row) (t : Table) :
    (TABLE_MAX_ROWS ≤ t.num_rows ∧
        execute_insert g r t = some (EXECUTE_RESULT.EXECUTE_TABLE_FULL, t)) ∨
      (t.num_rows < TABLE_MAX_ROWS ∧
        ∃ t2, execute_insert g r t = some (EXECUTE_RESULT.EXECUTE_SUCCESS, t2) ∧
          t2.num_rows = t.num_rows + 1) := by
  by_cases h : TABLE_MAX_ROWS ≤ t.num_rows
  · refine Or.inl ⟨h, ?_⟩
    unfold execute_insert
    rw [if_pos h]
  · have hlt : t.num_rows < TABLE_MAX_ROWS := by omega
    obtain ⟨t2, he, hn, _⟩ := execute_insert_spec g r t hlt
    exact Or.inr ⟨hlt, t2, he, hn⟩

/-! ## The select scan -/

/-- As long as every scanned row maps to a page index the pager accepts
(`start + c <= TABLE_MAX_ROWS` suffices), the scan succeeds and returns the
decoded rows `start .. start + c - 1` in ascending order; it changes no
page's observable contents and leaves `num_rows` alone. -/
lemma selectRows_spec (g : Nat → Nat → Nat) :
    ∀ (c start : Nat) (t : Table), start + c ≤ TABLE_MAX_ROWS →
    ∃ t2, selectRows g start c t =
        some ((List.range' start c).map (fun i => deserialize_row (obsRowBytes g t i)), t2) ∧
      t2.num_rows = t.num_rows ∧ ∀ q, obsPage g t2.pager q = obsPage g t.pager q := by
  intro c
  induction c with
  | zero =>
    intro start t _
    exact ⟨t, by simp [selectRows], rfl, fun q => rfl⟩
  | succ n ih =>
    intro start t h
    have hpn : start / ROWS_PER_PAGE ≤ TABLE_MAX_PAGES := by
      rw [ROWS_PER_PAGE_eq, TABLE_MAX_PAGES_eq]
      rw [TABLE_MAX_ROWS_eq] at h
      omega
    obtain ⟨p2, hgp, hfile, hobs⟩ := get_page_spec g t.pager (start / ROWS_PER_PAGE) hpn
    obtain ⟨t2, hsel, hnum, hobs2⟩ := ih (start + 1) { t with pager := p2 } (by omega)
    have hobs3 : ∀ q, obsPage g t2.pager q = obsPage g t.pager q :=
      fun q => (hobs2 q).trans (hobs q)
    refine ⟨t2, ?_, hnum, hobs3⟩
    have hrows : ∀ i, deserialize_row (obsRowBytes g { t with pager := p2 } i) =
        deserialize_row (obsRowBytes g t i) := by
      intro i
      rw [obsRowBytes_pager g t { t with pager := p2 } hobs i]
    simp only [selectRows, hgp, hsel, List.range'_succ]
    simp only [List.map_cons, List.map_congr_left fun i _ => hrows i]
    rfl

/-- If some scanned row maps to a page index rejected by `get_page`'s guard,
the scan aborts fatally. -/
lemma selectRows_none (g : Nat → Nat → Nat) :
    ∀ (c start : Nat) (t : Table),
    (∃ k, k < c ∧ TABLE_MAX_PAGES < (start + k) / ROWS_PER_PAGE) →
    selectRows g start c t = none := by
  intro c
  induction c with
  | zero =>
    rintro start t ⟨k, hk, _⟩
    omega
  | succ n ih =>
    rintro start t ⟨k, hk, hover⟩
    by_cases h0 : TABLE_MAX_PAGES < start / ROWS_PER_PAGE
    · simp only [selectRows]
      unfold get_page
      rw [if_pos h0]
    · have hk0 : k ≠ 0 := by
        rintro rfl
        rw [Nat.add_zero] at hover
        exact h0 hover
      obtain ⟨p2, hgp, _, _⟩ := get_page_spec g t.pager (start / ROWS_PER_PAGE) (by omega)
      have hrec : selectRows g (start + 1) n { t with pager := p2 } = none := by
        refine ih (start + 1) { t with pager := p2 } ⟨k - 1, by omega, ?_⟩
        have hs : start + 1 + (k - 1) = start + k := by omega
        rw [hs]
        exact hover
      simp only [selectRows, hgp, hrec]

/-- `num_rows` is untouched by `execute_select`, whatever it returns. -/
lemma execute_select_num_rows (g : Nat → Nat → Nat) (t : Table)
    (res : EXECUTE_RESULT) (rows : List Row) (t2 : Table)
    (h : execute_select g t = some (res, rows, t2)) : t2.num_rows = t.num_rows := by
  have haux : ∀ (c start : Nat) (s s2 : Table) (rs : List Row),
      selectRows g start c s = some (rs, s2) → s2.num_rows = s.num_rows := by
    intro c
    induction c with
    | zero =>
      intro start s s2 rs hsel
      simp only [selectRows, Option.some.injEq, Prod.mk.injEq] at hsel
      rw [← hsel.2]
    | succ n ih =>
      intro start s s2 rs hsel
      simp only [selectRows] at hsel
      split at hsel
      · exact absurd hsel (by simp)
      · rename_i pg p2 hgp
        split at hsel
        · exact absurd hsel (by simp)
        · rename_i rows2 t3 hrec
          simp only [Option.some.injEq, Prod.mk.injEq] at hsel
          rw [← hsel.2]
          exact ih (start + 1) { s with pager := p2 } t3 rows2 hrec
  unfold execute_select at h
  by_cases hz : t.num_rows = 0
  · rw [if_pos hz] at h
    simp only [Option.some.injEq, Prod.mk.injEq] at h
    rw [← h.2.2]
  · rw [if_neg hz] at h
    split at h
    · exact absurd h (by simp)
    · rename_i rows2 t3 hsel
      simp only [Option.some.injEq, Prod.mk.injEq] at h
      rw [← h.2.2]
      exact haux t.num_rows 0 t t3 rows2 hsel

/-! ## Select result codes (C8) and capacity invariant (C10) -/

/-- C8 (amended): `execute_select` returns `TableEmpty` exactly when
`num_rows = 0` (and then leaves the table untouched); with
`0 < num_rows <= TABLE_MAX_ROWS` — every state reachable by the program's
own inserts — it succeeds with one record per row; and whenever it returns
at all, the result is `TableEmpty` iff `num_rows = 0`. -/
theorem c8_select_empty_iff (g : Nat → Nat → Nat) (t : Table) :
    (t.num_rows = 0 →
      execute_select g t = some (EXECUTE_RESULT.EXECUTE_TABLE_EMPTY, [], t)) ∧
    (0 < t.num_rows → t.num_rows ≤ TABLE_MAX_ROWS →
      ∃ rows t2, execute_select g t = some (EXECUTE_RESULT.EXECUTE_SUCCESS, rows, t2) ∧
        rows.length = t.num_rows) ∧
    (∀ res rows t2, execute_select g t = some (res, rows, t2) →
      (res = EXECUTE_RESULT.EXECUTE_TABLE_EMPTY ↔ t.num_rows = 0)) := by
  refine ⟨?_, ?_, ?_⟩
  · intro hz
    unfold execute_select
    rw [if_pos hz]
  · intro hpos hle
    obtain ⟨t2, hsel, _, _⟩ := selectRows_spec g t.num_rows 0 t (by omega)
    refine ⟨(List.range' 0 t.num_rows).map (fun i => deserialize_row (obsRowBytes g t i)),
      t2, ?_, by simp⟩
    unfold execute_select
    rw [if_neg (by omega), hsel]
  · intro res rows t2 h
    unfold execute_select at h
    by_cases hz : t.num_rows = 0
    · rw [if_pos hz] at h
      simp only [Option.some.injEq, Prod.mk.injEq] at h
      exact ⟨fun _ => hz, fun _ => h.1.symm⟩
    · rw [if_neg hz] at h
      split at h
      · exact absurd h (by simp)
      · rename_i rows3 t3 hsel
        simp only [Option.some.injEq, Prod.mk.injEq] at h
        constructor
        · intro hres
          rw [← h.1] at hres
          exact absurd hres (by decide)
        · intro hz2
          exact absurd hz2 hz

/-- A table state with one (garbage) row, used to exercise the nonempty
branch of select. -/
def tOneRow : Table :=
  { num_rows := 1, pager := { file := emptyFile, pages := fun _ => none } }

theorem c8_select_empty_iff_witness :
    ((db_open emptyFile).num_rows = 0 ∧
      execute_select gZero (db_open emptyFile) =
        some (EXECUTE_RESULT.EXECUTE_TABLE_EMPTY, [], db_open emptyFile)) ∧
    (0 < tOneRow.num_rows ∧ tOneRow.num_rows ≤ TABLE_MAX_ROWS ∧
      ∃ rows t2, execute_select gZero tOneRow =
        some (EXECUTE_RESULT.EXECUTE_SUCCESS, rows, t2) ∧
        rows.length = tOneRow.num_rows) :=
  ⟨⟨by decide, (c8_select_empty_iff gZero (db_open emptyFile)).1 (by decide)⟩,
   ⟨by decide, by decide,
    (c8_select_empty_iff gZero tOneRow).2.1 (by decide) (by decide)⟩⟩

/-- A table state whose row count exceeds the capacity ceiling, as
`db_open` produces for a file of `1314 * ROW_SIZE` bytes
(385002 bytes, a length the on-disk format allows). -/
def tOversized : Table :=
  { num_rows := 1314, pager := { file := emptyFile, pages := fun _ => none } }

/-- C8 counterexample: the original claim promises success for EVERY table
state with `num_rows > 0`, but on a table with `num_rows = 1314` the scan
reaches row 1313, requests page `1313 / 13 = 101 > TABLE_MAX_PAGES`, and
the process aborts (`none`) instead of succeeding. -/
theorem c8_select_positive_aborts_oversized :
    0 < tOversized.num_rows ∧ execute_select gZero tOversized = none := by
  refine ⟨by decide, ?_⟩
  unfold execute_select
  rw [if_neg (by decide),
    selectRows_none gZero tOversized.num_rows 0 tOversized ⟨1313, by decide, by decide⟩]

/-- C10: starting from a table opened on an empty file (`num_rows = 0`),
the invariant `num_rows ≤ TABLE_MAX_ROWS = 1300` is preserved by every
insert and every select, and every row index below the ceiling maps to a
page index strictly below `TABLE_MAX_PAGES`. -/
theorem c10_capacity_invariant (g : Nat → Nat → Nat) (r : Row) (t : Table)
    (h : t.num_rows ≤ TABLE_MAX_ROWS) :
    (db_open emptyFile).num_rows ≤ TABLE_MAX_ROWS ∧
    (∀ res t2, execute_insert g r t = some (res, t2) →
      t2.num_rows ≤ TABLE_MAX_ROWS) ∧
    (∀ res rows t2, execute_select g t = some (res, rows, t2) →
      t2.num_rows ≤ TABLE_MAX_ROWS) ∧
    (∀ i, i < TABLE_MAX_ROWS → i / ROWS_PER_PAGE < TABLE_MAX_PAGES) ∧
    TABLE_MAX_ROWS = ROWS_PER_PAGE * TABLE_MAX_PAGES ∧ TABLE_MAX_ROWS = 1300 := by
  refine ⟨by decide, ?_, ?_, ?_, rfl, rfl⟩
  · intro res t2 hins
    exact execute_insert_num_rows g r t res t2 hins h
  · intro res rows t2 hsel
    rw [execute_select_num_rows g t res rows t2 hsel]
    exact h
  · intro i hi
    rw [ROWS_PER_PAGE_eq, TABLE_MAX_PAGES_eq]
    rw [TABLE_MAX_ROWS_eq] at hi
    omega

theorem c10_capacity_invariant_witness :
    (db_open emptyFile).num_rows ≤ TABLE_MAX_ROWS ∧
    ((db_open emptyFile).num_rows ≤ TABLE_MAX_ROWS ∧
     (∀ res t2, execute_insert gZero r0 (db_open emptyFile) = some (res, t2) →
       t2.num_rows ≤ TABLE_MAX_ROWS) ∧
     (∀ res rows t2, execute_select gZero (db_open emptyFile) = some (res, rows, t2) →
       t2.num_rows ≤ TABLE_MAX_ROWS) ∧
     (∀ i, i < TABLE_MAX_ROWS → i / ROWS_PER_PAGE < TABLE_MAX_PAGES) ∧
     TABLE_MAX_ROWS = ROWS_PER_PAGE * TABLE_MAX_PAGES ∧ TABLE_MAX_ROWS = 1300) :=
  ⟨by decide, c10_capacity_invariant gZero r0 (db_open emptyFile) (by decide)⟩

/-! ## Sequences of inserts (C6, C9) -/

/-- A sequence of inserts, each required to return `EXECUTE_SUCCESS`
(any other outcome aborts the run). -/
def insertAll (g : Nat → Nat → Nat) : List Row → Table → Option Table
  | [], t => some t
  | r :: rs, t =>
    match execute_insert g r t with
    | some (EXECUTE_RESULT.EXECUTE_SUCCESS, t2) => insertAll g rs t2
    | _ => none

/-- The table stores exactly the records `rs`: the row count matches and
row `i` holds the serialization of `rs[i]`. -/
def tableRep (g : Nat → Nat → Nat) (t : Table) (rs : List Row) : Prop :=
  t.num_rows = rs.length ∧
    ∀ i, (h : i < rs.length) → obsRowBytes g t i = serialize_row (rs.get ⟨i, h⟩)

/-- Running `insertAll` on a table that stores `done` leaves a table that
stores `done ++ rs`, and the capacity invariant is preserved. -/
lemma insertAll_rep (g : Nat → Nat → Nat) :
    ∀ (rs done : List Row) (t t2 : Table), (∀ r ∈ rs, validRow r) →
    tableRep g t done → t.num_rows ≤ TABLE_MAX_ROWS →
    insertAll g rs t = some t2 →
    tableRep g t2 (done ++ rs) ∧ t2.num_rows ≤ TABLE_MAX_ROWS := by
  intro rs
  induction rs with
  | nil =>
    intro done t t2 _ hrep hle hins
    simp only [insertAll, Option.some.injEq] at hins
    subst hins
    rw [List.append_nil]
    exact ⟨hrep, hle⟩
  | cons r rs ih =>
    intro done t t2 hval hrep hle hins
    by_cases hfull : TABLE_MAX_ROWS ≤ t.num_rows
    · exfalso
      unfold insertAll execute_insert at hins
      rw [if_pos hfull] at hins
      simp at hins
    · have hlt : t.num_rows < TABLE_MAX_ROWS := by omega
      have hv : validRow r := hval r (List.mem_cons_self r rs)
      obtain ⟨t3, hei, hn, _, _, hnew, hold⟩ :=
        execute_insert_rows g r t hlt (serialize_row_length r hv.1 hv.2.1)
      have hins2 : insertAll g rs t3 = some t2 := by
        unfold insertAll at hins
        rw [hei] at hins
        exact hins
      have hrep3 : tableRep g t3 (done ++ [r]) := by
        constructor
        · rw [hn, hrep.1]
          simp
        · intro i hi
          have hi2 : i < done.length + 1 := by simpa using hi
          rcases Nat.lt_or_ge i done.length with hlt2 | hge
          · have hilt : i < t.num_rows := by rw [hrep.1]; exact hlt2
            rw [hold i hilt, hrep.2 i hlt2]
            congr 1
            rw [List.get_eq_getElem, List.get_eq_getElem,
              List.getElem_append_left hlt2]
          · have hieq : i = done.length := by omega
            subst hieq
            rw [hrep.1] at hnew
            rw [hnew]
            congr 1
            rw [List.get_eq_getElem, List.getElem_append_right (Nat.le_refl _)]
            simp
      have hres := ih (done ++ [r]) t3 t2
        (fun r2 hr2 => hval r2 (List.mem_cons_of_mem r hr2)) hrep3
        (by rw [hn]; omega) hins2
      rw [List.append_assoc, List.singleton_append] at hres
      exact hres

/-- C6: inserting the valid records `rs = [r0 .. rn]` (nonempty, each insert
succeeding) into a table opened on an empty file and then selecting yields
exactly `rs`, in insertion order — the scan decodes rows `0 .. num_rows - 1`
ascending. Holds for EVERY allocator garbage `g`. -/
theorem c6_append_order (g : Nat → Nat → Nat) (rs : List Row) (t2 : Table)
    (hne : rs ≠ []) (hval : ∀ r ∈ rs, validRow r)
    (hins : insertAll g rs (db_open emptyFile) = some t2) :
    ∃ t3, execute_select g t2 = some (EXECUTE_RESULT.EXECUTE_SUCCESS, rs, t3) := by
  have hrep0 : tableRep g (db_open emptyFile) [] := by
    refine ⟨by decide, ?_⟩
    intro i hi
    simp at hi
  obtain ⟨hrep, hle⟩ :=
    insertAll_rep g rs [] (db_open emptyFile) t2 hval hrep0 (by decide) hins
  rw [List.nil_append] at hrep
  have hnum : t2.num_rows = rs.length := hrep.1
  have hpos : ¬ t2.num_rows = 0 := by
    rw [hnum]
    intro h0
    exact hne (List.eq_nil_of_length_eq_zero h0)
  obtain ⟨t3, hsel, _, _⟩ := selectRows_spec g t2.num_rows 0 t2 (by omega)
  have hmap : (List.range' 0 t2.num_rows).map
      (fun i => deserialize_row (obsRowBytes g t2 i)) = rs := by
    refine List.ext_getElem (by simp [hnum]) ?_
    intro n h1 h2
    simp only [List.getElem_map, List.getElem_range', Nat.zero_add, Nat.one_mul]
    have hb : n < rs.length := h2
    rw [hrep.2 n hb]
    have hv := hval (rs.get ⟨n, hb⟩) (List.get_mem rs n hb)
    rw [deserialize_serialize _ hv.1 hv.2.1 hv.2.2, List.get_eq_getElem]
  refine ⟨t3, ?_⟩
  unfold execute_select
  rw [if_neg hpos, hsel, hmap]

/-- The default table used to name the result of a concrete `insertAll`. -/
def tdef : Table := db_open emptyFile

theorem c6_append_order_witness :
    ∃ t3, execute_select gZero ((insertAll gZero [r0] (db_open emptyFile)).getD tdef) =
      some (EXECUTE_RESULT.EXECUTE_SUCCESS, [r0], t3) :=
  c6_append_order gZero [r0] ((insertAll gZero [r0] (db_open emptyFile)).getD tdef)
    (by decide) (by decide) rfl

/-- C9: below capacity, an insert succeeds, increments `num_rows` by exactly
one, changes no byte outside the slot of row `num_rows` (page
`num_rows / ROWS_PER_PAGE`, offset `(num_rows % ROWS_PER_PAGE) * ROW_SIZE`,
`ROW_SIZE` bytes), stores the record's serialization there, and every
previously stored row decodes to the same record as before. -/
theorem c9_insert_writes_single_slot (g : Nat → Nat → Nat) (r : Row) (t : Table)
    (hlt : t.num_rows < TABLE_MAX_ROWS) (hv : validRow r) :
    ∃ t2, execute_insert g r t = some (EXECUTE_RESULT.EXECUTE_SUCCESS, t2) ∧
      t2.num_rows = t.num_rows + 1 ∧
      (∀ q j, (q ≠ t.num_rows / ROWS_PER_PAGE ∨
          j < t.num_rows % ROWS_PER_PAGE * ROW_SIZE ∨
          t.num_rows % ROWS_PER_PAGE * ROW_SIZE + ROW_SIZE ≤ j) →
        obsPage g t2.pager q j = obsPage g t.pager q j) ∧
      obsRowBytes g t2 t.num_rows = serialize_row r ∧
      (∀ i, i < t.num_rows →
        deserialize_row (obsRowBytes g t2 i) =
          deserialize_row (obsRowBytes g t i)) := by
  obtain ⟨t2, hei, hn, _, hframe, hnew, hold⟩ :=
    execute_insert_rows g r t hlt (serialize_row_length r hv.1 hv.2.1)
  exact ⟨t2, hei, hn, hframe, hnew, fun i hi => by rw [hold i hi]⟩

theorem c9_insert_writes_single_slot_witness :
    ((db_open emptyFile).num_rows < TABLE_MAX_ROWS ∧ validRow r0) ∧
    (∃ t2, execute_insert gZero r0 (db_open emptyFile) =
        some (EXECUTE_RESULT.EXECUTE_SUCCESS, t2) ∧
      t2.num_rows = (db_open emptyFile).num_rows + 1 ∧
      (∀ q j, (q ≠ (db_open emptyFile).num_rows / ROWS_PER_PAGE ∨
          j < (db_open emptyFile).num_rows % ROWS_PER_PAGE * ROW_SIZE ∨
          (db_open emptyFile).num_rows % ROWS_PER_PAGE * ROW_SIZE + ROW_SIZE ≤ j) →
        obsPage gZero t2.pager q j = obsPage gZero (db_open emptyFile).pager q j) ∧
      obsRowBytes gZero t2 (db_open emptyFile).num_rows = serialize_row r0 ∧
      (∀ i, i < (db_open emptyFile).num_rows →
        deserialize_row (obsRowBytes gZero t2 i) =
          deserialize_row (obsRowBytes gZero (db_open emptyFile) i))) :=
  ⟨⟨by decide, by decide⟩,
    c9_insert_writes_single_slot gZero r0 (db_open emptyFile) (by decide) (by decide)⟩
